import Mathlib

/-!
Verification of the `@moleculer/database` HDB adapter (`src/adapters/hdb.js`)
and the `DatabaseMixin` service schema factory, as a shallow embedding in Lean.

JavaScript values that flow through the adapter's query compiler are modelled
by `JsValue`; conditions of a Query Filter mirror the object shapes the source
inspects (a non-object literal, or an operator object whose `$in`, `$nin`,
`$gt`, `$gte`, `$lt`, `$lte`, `$eq`, `$ne`, `$exists`, `$raw` properties may
each be present or absent).  String building mirrors the source's `+`
concatenations and `substring(0, length - n)` trims; all strings involved are
ASCII, so trimming by code units coincides with trimming by characters.
-/

namespace HDB

/-- JavaScript values reaching the query compiler: strings, (integer) numbers,
booleans, `null`, and `undefined`. -/
inductive JsValue where
  | str (s : String)
  | num (n : Int)
  | boolean (b : Bool)
  | null
  | undefined
deriving DecidableEq, Repr

/-- JavaScript truthiness of a `JsValue`. -/
def truthy : JsValue → Bool
  | .str s => s ≠ ""
  | .num n => n ≠ 0
  | .boolean b => b
  | .null => false
  | .undefined => false

/-- String coercion performed by JavaScript's `+` when a value is concatenated
into a query string. -/
def jsToString : JsValue → String
  | .str s => s
  | .num n => toString n
  | .boolean b => if b then "true" else "false"
  | .null => "null"
  | .undefined => "undefined"

/-- The shape of a `$raw` operand the source distinguishes with `typeof`:
a string or an object. -/
inductive RawVal where
  | rstr (s : String)
  | robj
deriving DecidableEq, Repr

/-- Truthiness of an optionally present value (JS reads an absent property as
`undefined`, which is falsy). -/
def truthyO : Option JsValue → Bool
  | some v => truthy v
  | none => false

/-- Truthiness of an optionally present `$raw` operand. -/
def truthyRaw : Option RawVal → Bool
  | some (.rstr s) => s ≠ ""
  | some .robj => true
  | none => false

/-- An operator object of a Query Filter condition.  Each field is `none` when
the corresponding `$`-property is absent.  `inq`/`ninq`/`exq` stand for the
reserved-looking `$in`/`$nin`/`$exists` properties; `$in`/`$nin` are modelled
in their array form, which is the only form the source's
`Array.isArray` guard lets through. -/
structure OpObject where
  inq : Option (List JsValue) := none
  ninq : Option (List JsValue) := none
  gt : Option JsValue := none
  gte : Option JsValue := none
  lt : Option JsValue := none
  lte : Option JsValue := none
  eq : Option JsValue := none
  ne : Option JsValue := none
  exq : Option Bool := none
  raw : Option RawVal := none
deriving DecidableEq, Repr

/-- A condition of a Query Filter: either a bare literal (the source's
`typeof value == "object" && value != null` test fails, includes `null`), or
an operator object. -/
inductive Condition where
  | lit (v : JsValue)
  | obj (o : OpObject)
deriving DecidableEq, Repr

/-- One entry of `this.service.$fields` as consulted by the adapter:
the physical column name and the declared column type. -/
structure FieldDef where
  columnName : String
  columnType : String
deriving DecidableEq, Repr

/-- Rendering of one comparison, mirroring the source's
`key + " >= '" + value.$gte + "' AND "` (string key) and
`key + ' >= ' + value.$gte + ' AND '` (non-string key) branches. -/
def renderOp (keyIsString : Bool) (key opName : String) (v : JsValue) : String :=
  if keyIsString then key ++ " " ++ opName ++ " '" ++ jsToString v ++ "' AND "
  else key ++ " " ++ opName ++ " " ++ jsToString v ++ " AND "

/-- The `if`/`else if` chain of `createQuery` over one operator object.
The `$in`, `$nin`, `$exists` and both `$raw` branches append the literal
placeholder string `IMPLEMENTAR`, exactly as in the source. -/
def opObjectFragment (keyIsString : Bool) (key : String) (o : OpObject) : String :=
  if o.inq.isSome then "IMPLEMENTAR"
  else if o.ninq.isSome then "IMPLEMENTAR"
  else if truthyO o.gt then renderOp keyIsString key ">" (o.gt.getD .undefined)
  else if truthyO o.gte then renderOp keyIsString key ">=" (o.gte.getD .undefined)
  else if truthyO o.lt then renderOp keyIsString key "<" (o.lt.getD .undefined)
  else if truthyO o.lte then renderOp keyIsString key "<=" (o.lte.getD .undefined)
  else if truthyO o.eq then renderOp keyIsString key "=" (o.eq.getD .undefined)
  else if truthyO o.ne then renderOp keyIsString key "!=" (o.ne.getD .undefined)
  else if o.exq == some true then "IMPLEMENTAR"
  else if o.exq == some false then "IMPLEMENTAR"
  else if truthyRaw o.raw then "IMPLEMENTAR"
  else ""

/-- Fragment contributed by one `[key, value]` entry of `params.query`:
the field definition is looked up by `columnName` against the original key,
then `id`/`_id` keys are replaced by the physical `_ID` column and forced to
quoted rendering, then a `string` column type also forces quoted rendering. -/
def renderCond (fields : List FieldDef) (key0 : String) (c : Condition) : String :=
  let keyDef := fields.find? (fun f => f.columnName == key0)
  let key := if key0 == "id" || key0 == "_id" then "_ID" else key0
  let keyIsString0 := key0 == "id" || key0 == "_id"
  let keyIsString := keyIsString0 ||
    (match keyDef with
     | some d => d.columnType == "string"
     | none => false)
  match c with
  | .obj o => opObjectFragment keyIsString key o
  | .lit v => renderOp keyIsString key "=" v

/-- The parameters of a find/count request as read by the adapter.  `none`
models an absent (hence falsy) property. -/
structure QueryParams where
  query : Option (List (String × Condition)) := none
  search : Option String := none
  sort : Option (List String) := none
  limit : Option Int := none
  offset : Option Int := none
deriving Repr

/-- JavaScript `s.substring(0, s.length - n)` for ASCII strings (the only
strings the compiler builds): drop the last `n` characters, total even when
`n` exceeds the length. -/
def jsDropRight (s : String) (n : Nat) : String :=
  String.mk (s.data.take (s.data.length - n))

/-- `createQuery` of the HDB adapter: fold the query entries onto the string
`"WHERE "`, then if anything was appended trim the last five characters
(the trailing `" AND "`), else return the empty string.  The source's sort,
search, limit and offset handling is commented out, so `params.sort` and the
other members are never consulted. -/
def createQuery (fields : List FieldDef) (params : Option QueryParams) : String :=
  let q := "WHERE "
  let q := match params with
    | some p => (p.query.getD []).foldl (fun acc kv => acc ++ renderCond fields kv.1 kv.2) q
    | none => q
  if q = "WHERE " then "" else jsDropRight q 5

/-- `find` of the HDB adapter, up to its SQL string: starts from
`select * from <schema>.<table>` and appends the compiled query when
`params?.query` is truthy and `createQuery` returned a non-empty string. -/
def hdbFind (schemaName table : String) (fields : List FieldDef)
    (params : Option QueryParams) : String :=
  let sqlQuery := "select * from " ++ schemaName ++ "." ++ table
  match params with
  | some p =>
    match p.query with
    | some _ =>
      let query := createQuery fields (some p)
      if query = "" then sqlQuery else sqlQuery ++ " " ++ query
    | none => sqlQuery
  | none => sqlQuery

/-- JavaScript object-property assignment on an insertion-ordered object,
as performed by `transformSort`'s reduce: an existing key is overwritten in
place, a new key is appended. -/
def objSet (l : List (String × Int)) (k : String) (v : Int) : List (String × Int) :=
  if l.any (fun p => p.1 == k) then l.map (fun p => if p.1 == k then (k, v) else p)
  else l ++ [(k, v)]

/-- JavaScript `s.startsWith("-")`: the first character is a dash. -/
def startsWithDash (s : String) : Bool :=
  match s.data with
  | c :: _ => c == '-'
  | [] => false

/-- JavaScript `s.slice(1)` for ASCII strings: drop the first character. -/
def jsSliceOne (s : String) : String :=
  String.mk (s.data.drop 1)

/-- `transformSort` of the adapter on an array argument: a leading `-` maps
the rest of the name to `-1` (descending), any other name maps to `1`
(ascending), in input order. -/
def transformSortList (sort : List String) : List (String × Int) :=
  sort.foldl
    (fun res s =>
      if startsWithDash s then objSet res (jsSliceOne s) (-1)
      else objSet res s 1)
    []

/-- Rows returned by `connectionObj.exec`. -/
def ExecRows := List (List JsValue)

/-- `count` of the HDB adapter.  `exec` abstracts `connectionObj.exec`; an
`Except.error` models the backend throwing.  The source wraps the call in a
`try`/`catch` whose catch block is empty, then — when `queryResult` is falsy
or reading `Object.values(queryResult[0])[0]` throws — falls through to
`return 0`; an empty first row makes that expression return `undefined`
without throwing.  No path lets the backend error escape. -/
def hdbCount (schemaName table : String)
    (exec : String → Except String (List (List JsValue))) : Except String JsValue :=
  let sqlQuery := "select count(*) from " ++ schemaName ++ "." ++ table
  let queryResult : Option (List (List JsValue)) :=
    match exec sqlQuery with
    | .ok r => some r
    | .error _ => none
  match queryResult with
  | some r =>
    match r with
    | row :: _ =>
      match row with
      | v :: _ => .ok v
      | [] => .ok .undefined
    | [] => .ok (.num 0)
  | none => .ok (.num 0)

/-- An entity as a JavaScript object: insertion-ordered key/value pairs. -/
def Entity := List (String × JsValue)

/-- JavaScript property read `entity[k]` (absent property reads `undefined`). -/
def entityGet (e : List (String × JsValue)) (k : String) : JsValue :=
  match e.find? (fun p => p.1 == k) with
  | some p => p.2
  | none => .undefined

/-- The column-list and value-list strings built by `insert`: every field of
`this.service.$fields` whose column is set to a truthy value on the entity
contributes `name, ` and either a quoted or an unquoted value followed by
`, `; both strings are then trimmed by two characters. -/
def insertQueryParts (fields : List FieldDef) (entity : List (String × JsValue)) :
    String × String :=
  let parts := fields.foldl
    (fun (acc : String × String) field =>
      let v := entityGet entity field.columnName
      if truthy v then
        (acc.1 ++ field.columnName ++ ", ",
         if field.columnType == "string" then acc.2 ++ "'" ++ jsToString v ++ "', "
         else acc.2 ++ jsToString v ++ ", ")
      else acc)
    ("", "")
  (jsDropRight parts.1 2, jsDropRight parts.2 2)

/-- `insert` of the HDB adapter.  The `exec` call sits in a `try` whose catch
block is empty; afterwards both the `if (insertResult)` branch and the fall
through return the input entity unchanged, so a backend failure is silently
absorbed. -/
def hdbInsert (schemaName table : String) (fields : List FieldDef)
    (exec : String → Except String (List (List JsValue)))
    (entity : List (String × JsValue)) : Except String (List (String × JsValue)) :=
  let parts := insertQueryParts fields entity
  let sqlQuery := "insert into " ++ schemaName ++ "." ++ table ++ "(" ++ parts.1 ++
    ") VALUES(" ++ parts.2 ++ ")"
  let insertResult : Option (List (List JsValue)) :=
    match exec sqlQuery with
    | .ok r => some r
    | .error _ => none
  match insertResult with
  | some _ => .ok entity
  | none => .ok entity

/-- State of one adapter instance around `connect`: the `this.connectionObj`
property and a ghost counter of how many connections have been established
(each establishment is `createConnection()` + `connect(connParams)`). -/
structure ConnState where
  connectionObj : Option Nat
  established : Nat
deriving DecidableEq, Repr

/-- One run of `connect()`.  The body contains no `await`, so under
JavaScript's run-to-completion scheduling it executes atomically; concurrent
calls on the same adapter instance (one instance per tenant/model key in the
mixin's `adapters` map) serialize into consecutive applications of this
step.  A connection is established only when `this.connectionObj` is unset. -/
def hdbConnect (s : ConnState) : ConnState :=
  match s.connectionObj with
  | some _ => s
  | none => { connectionObj := some s.established, established := s.established + 1 }

/-- Adapter state before the first `connect()`. -/
def initialConnState : ConnState := ⟨none, 0⟩

/-- Outcome of evaluating a JavaScript expression: a value, or a thrown
exception. -/
inductive JsOutcome (α : Type) where
  | ok (a : α)
  | thrown (e : String)
deriving DecidableEq, Repr

/-- `stringToObjectID` of the HDB adapter.  The guard is
`typeof id == "string" && ObjectId.isValid(id)`; the module never binds
`ObjectId` (no mongodb import, and `init` only loads the hana client), so as
soon as the first conjunct holds the reference to `ObjectId` throws a
`ReferenceError`.  Non-strings short-circuit past the reference and are
returned unchanged. -/
def stringToObjectID : JsValue → JsOutcome JsValue
  | .str _ => .thrown "ReferenceError: ObjectId is not defined"
  | v => .ok v

/-- `objectIDToString` of the HDB adapter: `if (id && id.toHexString)` — no
value this adapter produces carries a `toHexString` method (its native ids
are the string `_ID` columns of HANA rows), so every value falls through and
is returned unchanged. -/
def objectIDToString (v : JsValue) : JsValue := v

/-- The round trip `objectIDToString(stringToObjectID(s))` on a string
identifier, propagating a thrown exception. -/
def idRoundTrip (s : String) : JsOutcome JsValue :=
  match stringToObjectID (.str s) with
  | .ok v => .ok (objectIDToString v)
  | .thrown e => .thrown e

end HDB

namespace Mixin

/-- The `cache` block of the mixin options.  `none` models an absent
property; `eventName`'s default of `null` is conflated with absence, which is
faithful for every use here (both are falsy). -/
structure CacheOpts where
  enable : Option Bool := none
  enabled : Option Bool := none
  eventName : Option String := none
deriving DecidableEq, Repr

/-- The options accepted by `DatabaseMixin`, before defaulting. -/
structure MixinOpts where
  createActions : Option Bool := none
  actionVisibility : Option String := none
  generateActionParams : Option Bool := none
  cache : Option CacheOpts := none
  rest : Option Bool := none
  autoReconnect : Option Bool := none
  maxLimit : Option Int := none
  defaultPageSize : Option Int := none
deriving DecidableEq, Repr

/-- The `_.defaultsDeep` call at the top of `DatabaseMixin`: every missing
option is filled from the defaults object.  The defaults object's cache block
is `{ enable: true, eventName: null }` — it carries no `enabled` key, so that
property is left exactly as supplied. -/
def applyMixinDefaults (o : MixinOpts) : MixinOpts :=
  { createActions := some (o.createActions.getD true),
    actionVisibility := some (o.actionVisibility.getD "published"),
    generateActionParams := some (o.generateActionParams.getD true),
    cache := some
      { enable := some ((o.cache.getD {}).enable.getD true),
        enabled := (o.cache.getD {}).enabled,
        eventName := (o.cache.getD {}).eventName },
    rest := some (o.rest.getD true),
    autoReconnect := some (o.autoReconnect.getD true),
    maxLimit := some (o.maxLimit.getD (-1)),
    defaultPageSize := some (o.defaultPageSize.getD 10) }

/-- Whether `DatabaseMixin` attaches the `events` block to the returned
schema: the source guards it with `if (mixinOpts.cache && mixinOpts.cache.enabled)`
on the defaulted options, where `enabled` is read with JS truthiness. -/
def cacheEventsRegistered (opts : MixinOpts) : Bool :=
  let m := applyMixinDefaults opts
  match m.cache with
  | some c => c.enabled.getD false
  | none => false

/-- The `cache.enable` value of the defaulted options (the key the defaults
object actually sets). -/
def defaultedCacheEnable (opts : MixinOpts) : Option Bool :=
  match (applyMixinDefaults opts).cache with
  | some c => c.enable
  | none => none

end Mixin

namespace HDB

/-- The example entity schema of the specification, as the adapter's
`$fields` list: a string primary key stored in `_id`, a required string
`name`, a numeric `age`, and a hidden numeric `deletedAt` marker. -/
def exampleFields : List FieldDef :=
  [⟨"_id", "string"⟩, ⟨"name", "string"⟩, ⟨"age", "number"⟩, ⟨"deletedAt", "number"⟩]

theorem string_data_append (a b : String) : (a ++ b).data = a.data ++ b.data := by
  cases a
  cases b
  rfl

theorem string_mk_data (s : String) : String.mk s.data = s := by
  cases s
  rfl

theorem string_append_assoc (a b c : String) : a ++ b ++ c = a ++ (b ++ c) := by
  cases a
  cases b
  cases c
  show String.mk _ = String.mk _
  rw [List.append_assoc]

theorem jsDropRight_append (a b : String) (n : Nat) (h : b.data.length = n) :
    jsDropRight (a ++ b) n = a := by
  unfold jsDropRight
  rw [string_data_append, List.length_append, h, Nat.add_sub_cancel,
    List.take_left' rfl, string_mk_data]

theorem jsDropRight_and (a : String) : jsDropRight (a ++ " AND ") 5 = a :=
  jsDropRight_append a " AND " 5 rfl

/-- A comparison fragment without its trailing `" AND "` joiner. -/
def renderOpCore (keyIsString : Bool) (key opName : String) (v : JsValue) : String :=
  if keyIsString then key ++ " " ++ opName ++ " '" ++ jsToString v ++ "'"
  else key ++ " " ++ opName ++ " " ++ jsToString v

theorem renderOp_eq_core (b : Bool) (key op : String) (v : JsValue) :
    renderOp b key op v = renderOpCore b key op v ++ " AND " := by
  cases b <;>
    simp only [renderOp, renderOpCore, Bool.false_eq_true, if_false, if_true,
      string_append_assoc]
  all_goals rfl

/-- Conditions on which the compiler has a defined (non-placeholder)
rendering: a bare literal, or an operator object with no `$in`/`$nin` and at
least one truthy comparison operand, which the `else if` chain then renders
as a comparison fragment. -/
def rendersDirect : Condition → Bool
  | .lit _ => true
  | .obj o => o.inq.isNone && o.ninq.isNone &&
      (truthyO o.gt || truthyO o.gte || truthyO o.lt || truthyO o.lte ||
       truthyO o.eq || truthyO o.ne)

/-- The clause fragment of one query entry, without the trailing joiner. -/
def condCore (fields : List FieldDef) (key : String) (c : Condition) : String :=
  jsDropRight (renderCond fields key c) 5

theorem renderCond_ends_with_and (fields : List FieldDef) (key : String)
    (c : Condition) (h : rendersDirect c = true) :
    ∃ X, renderCond fields key c = X ++ " AND " := by
  cases c with
  | lit v => exact ⟨_, renderOp_eq_core _ _ "=" v⟩
  | obj o =>
    simp only [rendersDirect, Bool.and_eq_true, Bool.or_eq_true] at h
    obtain ⟨⟨hin, hnin⟩, hcmp⟩ := h
    rw [Option.isNone_iff_eq_none] at hin hnin
    simp only [renderCond, opObjectFragment, hin, hnin, Option.isSome_none,
      Bool.false_eq_true, if_false]
    by_cases h1 : truthyO o.gt = true
    · simp only [h1, if_true]
      exact ⟨_, renderOp_eq_core _ _ _ _⟩
    by_cases h2 : truthyO o.gte = true
    · simp only [h1, h2, if_false, if_true]
      exact ⟨_, renderOp_eq_core _ _ _ _⟩
    by_cases h3 : truthyO o.lt = true
    · simp only [h1, h2, h3, if_false, if_true]
      exact ⟨_, renderOp_eq_core _ _ _ _⟩
    by_cases h4 : truthyO o.lte = true
    · simp only [h1, h2, h3, h4, if_false, if_true]
      exact ⟨_, renderOp_eq_core _ _ _ _⟩
    by_cases h5 : truthyO o.eq = true
    · simp only [h1, h2, h3, h4, h5, if_false, if_true]
      exact ⟨_, renderOp_eq_core _ _ _ _⟩
    by_cases h6 : truthyO o.ne = true
    · simp only [h1, h2, h3, h4, h5, h6, if_false, if_true]
      exact ⟨_, renderOp_eq_core _ _ _ _⟩
    exact absurd hcmp (by simp [h1, h2, h3, h4, h5, h6])

theorem renderCond_direct (fields : List FieldDef) (key : String) (c : Condition)
    (h : rendersDirect c = true) :
    renderCond fields key c = condCore fields key c ++ " AND " := by
  obtain ⟨X, hX⟩ := renderCond_ends_with_and fields key c h
  rw [condCore, hX, jsDropRight_and]

/-- The joining of clause fragments the specification describes: fragments
separated by the `AND` joiner, with nothing after the final fragment. -/
def joinAnd : List String → String
  | [] => ""
  | [a] => a
  | a :: b :: rest => a ++ " AND " ++ joinAnd (b :: rest)

theorem foldl_direct (fields : List FieldDef) (entries : List (String × Condition))
    (h : ∀ kc ∈ entries, rendersDirect kc.2 = true) :
    ∀ init : String, entries ≠ [] →
      entries.foldl (fun acc kv => acc ++ renderCond fields kv.1 kv.2) init =
        init ++ joinAnd (entries.map fun kv => condCore fields kv.1 kv.2) ++ " AND " := by
  induction entries with
  | nil => exact fun init hne => absurd rfl hne
  | cons x tl ih =>
    intro init _
    cases tl with
    | nil =>
      simp only [List.foldl_cons, List.foldl_nil, List.map_cons, List.map_nil, joinAnd]
      rw [renderCond_direct _ _ _ (h x (by simp)), string_append_assoc]
    | cons y tl' =>
      have ih' := ih (fun kc hm => h kc (List.mem_cons_of_mem _ hm))
        (init ++ renderCond fields x.1 x.2) (by simp)
      simp only [List.foldl_cons] at ih' ⊢
      rw [ih', renderCond_direct _ _ _ (h x (by simp))]
      simp only [List.map_cons, joinAnd, string_append_assoc]

theorem hdbConnect_iterate (k : Nat) :
    hdbConnect^[k + 1] initialConnState = ⟨some 0, 1⟩ := by
  induction k with
  | zero => rfl
  | succ k ih =>
    rw [Function.iterate_succ_apply', ih]
    rfl

end HDB

open HDB Mixin

/-- C1: the claim requires every filter operator to either have a defined
rendering or fail compilation with an UnsupportedOperatorError, never a
silent placeholder.  The HDB backend's `createQuery` instead appends the
literal placeholder token `IMPLEMENTAR` for `$in`, `$nin`, `$exists` (both
polarities) and `$raw`, and the final trim even truncates it to `IMPLEM`;
compilation reports no error. -/
theorem c1_unsupported_operators_emit_placeholder :
    createQuery exampleFields
      (some { query := some [("age", .obj { inq := some [.num 1, .num 2] })] }) =
      "WHERE IMPLEM" ∧
    createQuery exampleFields
      (some { query := some [("age", .obj { ninq := some [.num 1] })] }) =
      "WHERE IMPLEM" ∧
    createQuery exampleFields
      (some { query := some [("age", .obj { exq := some true })] }) =
      "WHERE IMPLEM" ∧
    createQuery exampleFields
      (some { query := some [("age", .obj { exq := some false })] }) =
      "WHERE IMPLEM" ∧
    createQuery exampleFields
      (some { query := some [("age", .obj { raw := some (.rstr "AGE > 5") })] }) =
      "WHERE IMPLEM" := by
  refine ⟨?_, ?_, ?_, ?_, ?_⟩ <;> rfl

/-- C2: the claim requires `find({query: {age: {$gte: 18, $lte: 65}}, sort:
["-age"]})` to compile to an AND of both bounds and a descending sort key.
The `else if` chain of `createQuery` renders only the first matching operator
of a condition object, so the `$lte` bound is dropped, and the sort handling
of `createQuery` is commented out, so no sort clause is emitted: the
generated SQL is exactly `select * from ADDTAX.TAXD0000 WHERE age >= 18`. -/
theorem c2_range_query_drops_second_bound_and_sort :
    hdbFind "ADDTAX" "TAXD0000" exampleFields
      (some { query := some [("age", .obj { gte := some (.num 18), lte := some (.num 65) })],
              sort := some ["-age"] }) =
      "select * from ADDTAX.TAXD0000 WHERE age >= 18" := by
  rfl

/-- C3: a condition `{field: {$gte: "M"}}` on a field whose declared column
type is `string` compiles to a single-quoted literal, and `{field: {$gte:
18}}` on a field of column type `number` compiles to an unquoted literal,
for any non-identifier field resolved in the service's field list. -/
theorem c3_literal_quoting_follows_declared_type (fields : List FieldDef)
    (key : String) (d : FieldDef)
    (hfind : fields.find? (fun f => f.columnName == key) = some d)
    (hid : key ≠ "id") (hid2 : key ≠ "_id") :
    (d.columnType = "string" →
      renderCond fields key (.obj { gte := some (.str "M") }) = key ++ " >= 'M' AND ") ∧
    (d.columnType = "number" →
      renderCond fields key (.obj { gte := some (.num 18) }) = key ++ " >= 18 AND ") := by
  constructor <;> intro ht <;>
    (simp only [renderCond, hfind, opObjectFragment, truthyO, truthy, renderOp, ht,
      beq_iff_eq, hid, hid2, Bool.or_self, Bool.false_or, if_false, string_append_assoc]
     simp [hid, hid2]
     rfl)

/-- Witness for C3 on the example schema: `name` is a string field and `age`
a number field. -/
theorem c3_literal_quoting_follows_declared_type_witness :
    renderCond exampleFields "name" (.obj { gte := some (.str "M") }) = "name >= 'M' AND " ∧
    renderCond exampleFields "age" (.obj { gte := some (.num 18) }) = "age >= 18 AND " :=
  ⟨(c3_literal_quoting_follows_declared_type exampleFields "name" ⟨"name", "string"⟩
      rfl (by decide) (by decide)).1 rfl,
   (c3_literal_quoting_follows_declared_type exampleFields "age" ⟨"age", "number"⟩
      rfl (by decide) (by decide)).2 rfl⟩

/-- C4: a query condition keyed by the identifier field (`id` or `_id`) has
the physical column name `_ID` substituted and its value rendered as a
single-quoted literal, whatever the declared type in the field list: shown
for a bare equality literal and for a `$gte` condition with truthy operand. -/
theorem c4_identifier_conditions_use_physical_column_and_quotes
    (fields : List FieldDef) (key : String) (hkey : key = "id" ∨ key = "_id")
    (v : JsValue) :
    renderCond fields key (.lit v) = "_ID = '" ++ jsToString v ++ "' AND " ∧
    (truthy v = true →
      renderCond fields key (.obj { gte := some v }) =
        "_ID >= '" ++ jsToString v ++ "' AND ") := by
  rcases hkey with h | h <;> subst h <;>
    refine ⟨rfl, fun ht => ?_⟩ <;>
    simp only [renderCond, opObjectFragment, truthyO, ht]
  all_goals rfl

/-- Witness for C4: the field list declares `id` with a numeric column type,
yet both the literal and the `$gte` condition are quoted and target `_ID`. -/
theorem c4_identifier_conditions_use_physical_column_and_quotes_witness :
    renderCond [⟨"id", "number"⟩] "id" (.lit (.str "abc")) = "_ID = 'abc' AND " ∧
    renderCond [⟨"id", "number"⟩] "id" (.obj { gte := some (.str "abc") }) =
      "_ID >= 'abc' AND " :=
  ⟨(c4_identifier_conditions_use_physical_column_and_quotes [⟨"id", "number"⟩] "id"
      (Or.inl rfl) (.str "abc")).1,
   (c4_identifier_conditions_use_physical_column_and_quotes [⟨"id", "number"⟩] "id"
      (Or.inl rfl) (.str "abc")).2 rfl⟩

/-- C5 counterexample: with two query fields whose second condition is an
`$in`, the compiled text is not the AND-join of the two rendered fragments
(`name = 'x'` and `IMPLEMENTAR`): the unconditional five-character trim even
truncates the final placeholder fragment to `IMPLEM`. -/
theorem c5_counterexample_trailing_trim_eats_last_fragment :
    createQuery exampleFields
      (some { query := some [("name", .lit (.str "x")), ("age", .obj { inq := some [.num 1] })] }) =
      "WHERE name = 'x' AND IMPLEM" ∧
    ("WHERE name = 'x' AND IMPLEM" : String) ≠
      "WHERE " ++ joinAnd ["name = 'x'", "IMPLEMENTAR"] := by
  constructor
  · rfl
  · intro h
    exact absurd (congrArg String.data h) (by decide)

/-- C5 (amended): for a query over two or more fields whose conditions all
have a defined rendering (a literal, or a comparison operator with truthy
operand), the compiled text joins the per-field fragments with `AND` and the
trailing joiner is trimmed, so the clause ends with the last fragment. -/
theorem c5_conjunction_join_with_trailing_trim (fields : List FieldDef)
    (entries : List (String × Condition))
    (h : ∀ kc ∈ entries, rendersDirect kc.2 = true) (h2 : 2 ≤ entries.length) :
    createQuery fields (some { query := some entries }) =
      "WHERE " ++ joinAnd (entries.map fun kv => condCore fields kv.1 kv.2) := by
  have hne : entries ≠ [] := by
    cases entries
    · simp at h2
    · simp
  simp only [createQuery, Option.getD]
  rw [foldl_direct fields entries h "WHERE " hne]
  rw [if_neg ?_]
  · exact jsDropRight_and _
  · intro heq
    have h3 := congrArg (fun s : String => s.data.length) heq
    have e1 : ("WHERE " : String).data.length = 6 := rfl
    have e2 : (" AND " : String).data.length = 5 := rfl
    simp only [string_data_append, List.length_append, e1, e2] at h3
    omega

/-- Witness for the amended C5 on the example schema. -/
theorem c5_conjunction_join_with_trailing_trim_witness :
    createQuery exampleFields
      (some { query := some [("name", .lit (.str "x")), ("age", .obj { gte := some (.num 18) })] }) =
      "WHERE name = 'x' AND age >= 18" :=
  (c5_conjunction_join_with_trailing_trim exampleFields
    [("name", .lit (.str "x")), ("age", .obj { gte := some (.num 18) })]
    (by decide) (by decide)).trans rfl

/-- C6: the claim requires sort specifications to compile to ordered
ascending/descending clauses (leading `-` descending).  `transformSort` does
map `["-age", "name"]` to descending-by-age then ascending-by-name, but the
live `createQuery` never consults `params.sort` at all (its sort block is
commented out), so the compiled query is identical whatever the sort
specification is and contains no sort clause. -/
theorem c6_sort_is_never_compiled :
    (∀ (fields : List FieldDef) (p : QueryParams) (s : Option (List String)),
      createQuery fields (some { p with sort := s }) =
        createQuery fields (some { p with sort := none })) ∧
    transformSortList ["-age", "name"] = [("age", -1), ("name", 1)] := by
  exact ⟨fun fields p s => rfl, rfl⟩

/-- C7: the claim states the identifier round trip
`objectIDToString(stringToObjectID(s)) == s` for every valid identifier
string.  In `hdb.js` the name `ObjectId` is never bound, so
`stringToObjectID` throws a ReferenceError on every string input and the
round trip never produces any value, let alone `s`. -/
theorem c7_identifier_round_trip_throws (s : String) :
    idRoundTrip s = .thrown "ReferenceError: ObjectId is not defined" ∧
    ∀ v, idRoundTrip s ≠ .ok v := by
  refine ⟨rfl, fun v h => ?_⟩
  simp [idRoundTrip, stringToObjectID] at h

/-- C8: the claim requires backend failures to propagate as AdapterError and
forbids substituting default results.  The HDB adapter's `count` catches the
backend error in an empty `catch` and returns `0`, and `insert` likewise
swallows the error and returns the unmodified input entity; neither surfaces
any error. -/
theorem c8_count_insert_swallow_backend_errors (err : String)
    (entity : List (String × JsValue)) :
    hdbCount "ADDTAX" "TAXD0000" (fun _ => .error err) = .ok (.num 0) ∧
    hdbInsert "ADDTAX" "TAXD0000" exampleFields (fun _ => .error err) entity = .ok entity :=
  ⟨rfl, rfl⟩

/-- C9: first-time `connect()` calls for one tenant/model key (one adapter
instance in the mixin's `adapters` map) establish exactly one connection:
the body of `connect()` has no suspension point, so concurrent calls
serialize into iterated applications of the connect step, and any positive
number of them starting from the fresh state establishes exactly one
connection; moreover a `connect()` observing an existing connection changes
nothing. -/
theorem c9_connect_establishes_exactly_one_connection (k : Nat) (s : ConnState) :
    (hdbConnect^[k + 1] initialConnState).established = 1 ∧
    hdbConnect (hdbConnect s) = hdbConnect s := by
  constructor
  · rw [hdbConnect_iterate]
  · obtain ⟨c, e⟩ := s
    cases c <;> rfl

/-- C10: when the mixin options do not set `cache.enabled`, the defaulted
options carry `cache.enable = true` (the key the defaults object sets), yet
the events block is guarded by the distinct key `cache.enabled`, which stays
unset, so no cache-clean event subscription is attached to the returned
schema. -/
theorem c10_default_options_attach_no_cache_event (opts : MixinOpts)
    (h : (opts.cache.getD {}).enabled = none) :
    cacheEventsRegistered opts = false ∧
    ((opts.cache.getD {}).enable = none → defaultedCacheEnable opts = some true) := by
  refine ⟨?_, fun h2 => ?_⟩ <;>
    simp [cacheEventsRegistered, defaultedCacheEnable, applyMixinDefaults, h, *]

/-- Witness for C10 at the empty options object (no `cache.enabled` set). -/
theorem c10_default_options_attach_no_cache_event_witness :
    cacheEventsRegistered ({} : MixinOpts) = false ∧
    defaultedCacheEnable ({} : MixinOpts) = some true :=
  ⟨(c10_default_options_attach_no_cache_event {} rfl).1,
   (c10_default_options_attach_no_cache_event {} rfl).2 rfl⟩

